import Mathlib

/-!
Verification of the image-hosting API core (`app.py`): the upload
authorization and metadata-persistence flow over a key-value store
(Redis hashes and sorted sets) and an object-storage bucket (S3).

The embedding models:
* the key-value store as association lists (`Store`): `hashes` for Redis
  hashes (`hset`, `hsetnx`, `hgetall`) and `zsets` for sorted sets
  (`zadd`, `zrevrange`), each sorted-set list kept in the descending
  (score, member) order in which `ZREVRANGE` enumerates it;
* time as an oracle `clock : Nat → Nat` consumed tick by tick: each call
  of the helper `now()` (`int(time.time())`) reads the next tick, so two
  reads inside one request may disagree, exactly as two `time.time()`
  calls may straddle a second boundary;
* the `itsdangerous.URLSafeSerializer` token codec as a tagged encoding
  `dumps`/`loads` in which a token verifies only against the secret it
  was produced with;
* the S3 presigned-URL call as an oracle boolean `s3ok` (the
  `ClientError` branch) plus an opaque URL-producing function;
* each Flask endpoint as a function from the request's fields and the
  system state to a response (`Resp`, a JSON body plus an HTTP status)
  and the successor state.
-/

namespace ImageHost

/-- A JSON value, the shape `flask.jsonify` serializes. -/
inductive Json where
  | str (s : String)
  | num (n : Nat)
  | arr (elems : List Json)
  | obj (fields : List (String × Json))
deriving Repr

/-- Field access on a JSON object (`none` on other shapes). -/
def Json.lookup (key : String) : Json → Option Json
  | .obj fields => List.lookup key fields
  | _ => none

/-- Association-list lookup keyed by strings (a Redis hash field read). -/
def alookup {α : Type} (key : String) : List (String × α) → Option α
  | [] => none
  | (k, v) :: rest => if k = key then some v else alookup key rest

/-- Association-list update: overwrite the first binding of `key`, else append. -/
def aset {α : Type} (key : String) (value : α) : List (String × α) → List (String × α)
  | [] => [(key, value)]
  | (k, v) :: rest => if k = key then (k, value) :: rest else (k, v) :: aset key value rest

/-- The key-value store: Redis hashes and Redis sorted sets, by key. -/
structure Store where
  hashes : List (String × List (String × String))
  zsets : List (String × List (String × Nat))
deriving Repr, DecidableEq

def emptyStore : Store := ⟨[], []⟩

/-- The hash stored at `key` (`{}` when the key is absent). -/
def hashAt (st : Store) (key : String) : List (String × String) :=
  (alookup key st.hashes).getD []

/-- The sorted set stored at `key`, in descending `ZREVRANGE` order. -/
def zsetAt (st : Store) (key : String) : List (String × Nat) :=
  (alookup key st.zsets).getD []

/-- Apply a `mapping=` of fields to a hash, left to right (Redis `HSET`). -/
def setFields (fields : List (String × String)) (h : List (String × String)) :
    List (String × String) :=
  fields.foldl (fun acc fv => aset fv.1 fv.2 acc) h

/-- Redis `HSET key mapping`. -/
def hset (st : Store) (key : String) (fields : List (String × String)) : Store :=
  { st with hashes := aset key (setFields fields (hashAt st key)) st.hashes }

/-- Redis `HSETNX key field value`: write the field only when it is absent. -/
def hsetnx (st : Store) (key field value : String) : Store :=
  match alookup field (hashAt st key) with
  | some _ => st
  | none => { st with hashes := aset key (aset field value (hashAt st key)) st.hashes }

/-- Redis `HGETALL key`. -/
def hgetall (st : Store) (key : String) : List (String × String) :=
  hashAt st key

/-- Lexicographic (bytewise) strict order on character lists — the member
order of a Redis sorted set, in an executable structural form. -/
def lexLt : List Char → List Char → Bool
  | [], [] => false
  | [], _ :: _ => true
  | _ :: _, [] => false
  | a :: as, b :: bs => if a < b then true else if b < a then false else lexLt as bs

/-- Ordering of a sorted set: `p` enumerates before `q` in `ZREVRANGE` order:
higher score first, ties by reverse lexicographic member order. -/
def zBefore (p q : String × Nat) : Prop :=
  q.2 < p.2 ∨ (q.2 = p.2 ∧ lexLt q.1.data p.1.data = true)

instance : DecidableRel zBefore := fun p q => by
  unfold zBefore; infer_instance

/-- Drop the first binding of `member` from a sorted-set list. -/
def zremove (member : String) : List (String × Nat) → List (String × Nat)
  | [] => []
  | (m, sc) :: rest => if m = member then rest else (m, sc) :: zremove member rest

/-- Insert a member at its place in the descending `ZREVRANGE` order. -/
def zinsert (member : String) (score : Nat) : List (String × Nat) → List (String × Nat)
  | [] => [(member, score)]
  | (m, sc) :: rest =>
    if zBefore (member, score) (m, sc) then (member, score) :: (m, sc) :: rest
    else (m, sc) :: zinsert member score rest

/-- Redis `ZADD key {member: score}`: set the member's score, keeping order. -/
def zadd (st : Store) (key member : String) (score : Nat) : Store :=
  { st with zsets := aset key (zinsert member score (zremove member (zsetAt st key))) st.zsets }

/-- Redis `ZREVRANGE key 0 49`: the members of the top 50 entries. -/
def zrevrange50 (st : Store) (key : String) : List String :=
  ((zsetAt st key).take 50).map Prod.fst

/-- The system state an endpoint runs against: the store plus the clock
oracle (`clock` valued at successive `tick`s models successive
`int(time.time())` reads). -/
structure Sys where
  store : Store
  clock : Nat → Nat
  tick : Nat

def initSys (clock : Nat → Nat) : Sys := ⟨emptyStore, clock, 0⟩

/-- One call of the helper `now()`: read the clock, advance the tick. -/
def now (s : Sys) : Nat × Sys :=
  (s.clock s.tick, { s with tick := s.tick + 1 })

/-- Deployment configuration: bucket, region, signing secret. -/
structure Env where
  bucket : String
  region : String
  secret : String

/-- A response: JSON body plus HTTP status. -/
structure Resp where
  body : Json
  status : Nat
deriving Repr

/-- Helper `ok(payload, status)`: `jsonify` the payload itself — no wrapper. -/
def ok (payload : Json) (status : Nat) : Resp := ⟨payload, status⟩

/-- The error envelope body `{"error": {"code": ..., "message": ...}}`. -/
def errBody (code message : String) : Json :=
  .obj [("error", .obj [("code", .str code), ("message", .str message)])]

/-- Helper `err(code, message, status)`. -/
def err (code message : String) (status : Nat) : Resp := ⟨errBody code message, status⟩

def k_user (uid : String) : String := "user:" ++ uid

def k_user_images (uid : String) : String := "user:" ++ uid ++ ":images"

def k_img (iid : String) : String := "img:" ++ iid

/-- Helper `get_s3_url(key)`: the permanent public URL of a stored object. -/
def get_s3_url (env : Env) (key : String) : String :=
  "https://" ++ env.bucket ++ ".s3." ++ env.region ++ ".amazonaws.com/" ++ key

/-- The context tag of the token codec (`URLSafeSerializer(secret, salt="api-key")`). -/
def tokenTag (secret : String) : String := "signed.api-key." ++ secret ++ "."

/-- Strip an expected leading character sequence, or fail. -/
def stripTag : List Char → List Char → Option (List Char)
  | [], rest => some rest
  | _ :: _, [] => none
  | t :: ts, c :: cs => if t = c then stripTag ts cs else none

/-- Token issuing, `signer.dumps` on the uid claims: an opaque signed token. -/
def dumps (secret uid : String) : String := tokenTag secret ++ uid

/-- Token verification, `signer.loads`: the claims when the signature verifies, else failure. -/
def loads (secret token : String) : Option String :=
  match stripTag (tokenTag secret).data token.data with
  | some rest => some (String.mk rest)
  | none => none

/-- Python's `str.strip()`: drop leading and trailing whitespace. -/
def pyStrip (s : String) : String :=
  String.mk (((s.data.dropWhile Char.isWhitespace).reverse.dropWhile
    Char.isWhitespace).reverse)

/-- Helper `require_api_key()`: read the `X-API-Key` header, default `""`, strip;
an empty token or a token `signer.loads` rejects yields `None`. -/
def require_api_key (env : Env) (header : Option String) : Option String :=
  let token := pyStrip (header.getD "")
  if token = "" then none else loads env.secret token

/-- Python truthiness of an optional request field: absent or `""` is falsy. -/
def falsy : Option String → Bool
  | none => true
  | some v => v == ""

/-- The username an `issue-key` request resolves to:
`(request.json or {}).get("username", "demo").strip() or "demo"`. -/
def normUsername : Option String → String
  | none => "demo"
  | some u => if pyStrip u = "" then "demo" else pyStrip u

/-- Endpoint `POST /api/v1/dev/issue-key`: derive `uid = "u_" + username`, `HSETNX`
the username, unconditionally `HSET` uid and `created_at = now()`, and
return a signed token. -/
def issue_key (env : Env) (s : Sys) (username : Option String) : Resp × Sys :=
  let uname := normUsername username
  let uid := "u_" ++ uname
  let s1 : Sys := { s with store := hsetnx s.store (k_user uid) "username" uname }
  let ts := now s1
  let s2 : Sys := { ts.2 with
    store := hset ts.2.store (k_user uid) [("uid", uid), ("created_at", toString ts.1)] }
  (ok (.obj [("api_key", .str (dumps env.secret uid)), ("uid", .str uid)]) 200, s2)

/-- The presigned PUT URL (opaque: computed by `boto3`, never inspected here). -/
def presignedUrl (env : Env) (key mimeType : String) : String :=
  "https://" ++ env.bucket ++ ".s3." ++ env.region ++ ".amazonaws.com/" ++ key
    ++ "?x-amz-sig-for=" ++ mimeType

/-- Endpoint `POST /api/v1/upload/request`: auth, validate, mint `iid`/`key`, and
ask S3 for a presigned URL (`s3ok = false` is the `ClientError` branch);
`freshHex` is the oracle for `uuid.uuid4().hex[:12]`. No store write. -/
def request_upload (env : Env) (s : Sys) (header : Option String)
    (filename mimeType : Option String) (freshHex : String) (s3ok : Bool) : Resp × Sys :=
  match require_api_key env header with
  | none => (err "auth" "invalid api key" 401, s)
  | some uid =>
    if falsy filename || falsy mimeType then
      (err "validation" "filename and mime_type are required" 400, s)
    else
      let iid := "img_" ++ freshHex
      let key := "uploads/" ++ uid ++ "/" ++ iid ++ "/" ++ filename.getD ""
      if s3ok then
        (ok (.obj [("iid", .str iid), ("key", .str key),
          ("presigned_url", .str (presignedUrl env key (mimeType.getD "")))]) 200, s)
      else
        (err "s3_error" "Could not generate S3 upload URL. Check permissions." 500, s)

/-- Endpoint `POST /api/v1/upload/complete`: auth, validate, then one pipelined
(batched, hence atomic as one state transition) write of the image hash
and the `(iid, now())` index entry. Note the two separate `now()` reads:
`created_at` uses the first, the index score the second. -/
def complete_upload (env : Env) (s : Sys) (header : Option String)
    (iid key filename mimeType : Option String) : Resp × Sys :=
  match require_api_key env header with
  | none => (err "auth" "invalid api key" 401, s)
  | some uid =>
    if falsy iid || falsy key || falsy filename || falsy mimeType then
      (err "validation" "iid, key, filename, and mime_type are required" 400, s)
    else
      let iidv := iid.getD ""
      let keyv := key.getD ""
      let imgUrl := get_s3_url env keyv
      let t1 := now s
      let t2 := now t1.2
      let store2 := hset t2.2.store (k_img iidv)
        [("id", iidv), ("owner_uid", uid), ("key", keyv), ("url", imgUrl),
         ("filename", filename.getD ""), ("mime", mimeType.getD ""),
         ("private", "0"), ("created_at", toString t1.1), ("views", "0")]
      let store3 := zadd store2 (k_user_images uid) iidv t2.1
      (ok (.obj [("id", .str iidv), ("url", .str imgUrl)]) 201, { t2.2 with store := store3 })

/-- The items `GET /api/v1/me/images` assembles: `HGETALL` each of the top
50 index members, keeping the non-empty results. -/
def me_images_items (st : Store) (uid : String) : List (List (String × String)) :=
  ((zrevrange50 st (k_user_images uid)).map (fun iid => hgetall st (k_img iid))).filter
    (fun d => !d.isEmpty)

/-- Render a hash as a JSON object. -/
def hashJson (h : List (String × String)) : Json :=
  .obj (h.map (fun fv => (fv.1, .str fv.2)))

/-- Endpoint `GET /api/v1/me/images`: auth, then list the caller's images. -/
def me_images (env : Env) (s : Sys) (header : Option String) : Resp × Sys :=
  match require_api_key env header with
  | none => (err "auth" "invalid api key" 401, s)
  | some uid =>
    (ok (.obj [("items", .arr ((me_images_items s.store uid).map hashJson))]) 200, s)

/-- Endpoint `GET /health`. -/
def health_check : Resp := ok (.obj [("status", .str "ok")]) 200

/-! ### Association-list and store lemmas -/

theorem alookup_aset {α : Type} (k k' : String) (v : α) (l : List (String × α)) :
    alookup k' (aset k v l) = if k = k' then some v else alookup k' l := by
  induction l with
  | nil => simp [aset, alookup]
  | cons hd tl ih =>
    obtain ⟨hk, hv⟩ := hd
    by_cases h1 : hk = k <;> by_cases h2 : k = k' <;>
      simp_all [aset, alookup]

theorem alookup_aset_self {α : Type} (k : String) (v : α) (l : List (String × α)) :
    alookup k (aset k v l) = some v := by
  simp [alookup_aset]

theorem alookup_aset_ne {α : Type} {k k' : String} (h : k ≠ k') (v : α)
    (l : List (String × α)) : alookup k' (aset k v l) = alookup k' l := by
  simp [alookup_aset, h]

theorem aset_ne_nil {α : Type} (k : String) (v : α) (l : List (String × α)) :
    aset k v l ≠ [] := by
  cases l with
  | nil => simp [aset]
  | cons hd tl =>
    obtain ⟨hk, hv⟩ := hd
    simp only [aset]
    split <;> simp

theorem setFields_ne_nil_of_ne_nil (fields : List (String × String))
    (h : List (String × String)) (hne : h ≠ []) : setFields fields h ≠ [] := by
  induction fields generalizing h with
  | nil => simpa [setFields]
  | cons f fs ih =>
    have : setFields (f :: fs) h = setFields fs (aset f.1 f.2 h) := rfl
    rw [this]
    exact ih _ (aset_ne_nil _ _ _)

theorem setFields_cons_ne_nil (f : String × String) (fs : List (String × String))
    (h : List (String × String)) : setFields (f :: fs) h ≠ [] := by
  have : setFields (f :: fs) h = setFields fs (aset f.1 f.2 h) := rfl
  rw [this]
  exact setFields_ne_nil_of_ne_nil _ _ (aset_ne_nil _ _ _)

theorem hgetall_hset_self (st : Store) (key : String) (fields : List (String × String)) :
    hgetall (hset st key fields) key = setFields fields (hashAt st key) := by
  simp [hgetall, hset, hashAt, alookup_aset_self]

theorem hgetall_hset_ne {key key' : String} (h : key ≠ key') (st : Store)
    (fields : List (String × String)) :
    hgetall (hset st key fields) key' = hgetall st key' := by
  simp [hgetall, hset, hashAt, alookup_aset_ne h]

theorem zsetAt_hset (st : Store) (key : String) (fields : List (String × String))
    (key' : String) : zsetAt (hset st key fields) key' = zsetAt st key' := rfl

theorem hgetall_zadd (st : Store) (key member : String) (score : Nat) (key' : String) :
    hgetall (zadd st key member score) key' = hgetall st key' := rfl

theorem zsetAt_zadd_self (st : Store) (key member : String) (score : Nat) :
    zsetAt (zadd st key member score) key =
      zinsert member score (zremove member (zsetAt st key)) := by
  simp [zsetAt, zadd, alookup_aset_self]

theorem zsetAt_zadd_ne {key key' : String} (h : key ≠ key') (st : Store)
    (member : String) (score : Nat) :
    zsetAt (zadd st key member score) key' = zsetAt st key' := by
  simp [zsetAt, zadd, alookup_aset_ne h]

theorem hashAt_hsetnx_self (st : Store) (key field value : String) :
    hashAt (hsetnx st key field value) key =
      match alookup field (hashAt st key) with
      | some _ => hashAt st key
      | none => aset field value (hashAt st key) := by
  unfold hsetnx
  cases h : alookup field (hashAt st key) <;> simp [h, hashAt, alookup_aset_self]

theorem zsetAt_hsetnx (st : Store) (key field value key' : String) :
    zsetAt (hsetnx st key field value) key' = zsetAt st key' := by
  unfold hsetnx
  split <;> rfl

theorem self_mem_zinsert (member : String) (score : Nat) (l : List (String × Nat)) :
    (member, score) ∈ zinsert member score l := by
  induction l with
  | nil => simp [zinsert]
  | cons hd tl ih =>
    obtain ⟨m, sc⟩ := hd
    simp only [zinsert]
    split
    · exact List.mem_cons_self _ _
    · exact List.mem_cons_of_mem _ ih

theorem mem_map_fst_zinsert {x member : String} {score : Nat} {l : List (String × Nat)}
    (h : x ∈ (zinsert member score l).map Prod.fst) :
    x = member ∨ x ∈ l.map Prod.fst := by
  induction l with
  | nil =>
    simp [zinsert] at h
    exact Or.inl h
  | cons hd tl ih =>
    obtain ⟨m, sc⟩ := hd
    simp only [zinsert] at h
    split at h
    · simp only [List.map_cons, List.mem_cons] at h
      rcases h with h | h | h
      · exact Or.inl h
      · exact Or.inr (by simp [h])
      · exact Or.inr (by simp [h])
    · simp only [List.map_cons, List.mem_cons] at h
      rcases h with h | h
      · exact Or.inr (by simp [h])
      · rcases ih h with h' | h'
        · exact Or.inl h'
        · exact Or.inr (by simp [h'])

theorem mem_map_fst_zremove {x member : String} {l : List (String × Nat)}
    (h : x ∈ (zremove member l).map Prod.fst) : x ∈ l.map Prod.fst := by
  induction l with
  | nil => simp [zremove] at h
  | cons hd tl ih =>
    obtain ⟨m, sc⟩ := hd
    simp only [zremove] at h
    split at h
    · simp only [List.map_cons, List.mem_cons]
      exact Or.inr h
    · simp only [List.map_cons, List.mem_cons] at h ⊢
      rcases h with h | h
      · exact Or.inl h
      · exact Or.inr (ih h)

/-- A missing, empty (after stripping), or unverifiable token yields no claims. -/
theorem require_api_key_none {env : Env} {header : Option String}
    (h : header = none ∨ pyStrip (header.getD "") = "" ∨
      loads env.secret (pyStrip (header.getD "")) = none) :
    require_api_key env header = none := by
  unfold require_api_key
  rcases h with h | h | h
  · subst h; rfl
  · simp [h]
  · by_cases he : (pyStrip (header.getD "")) = "" <;> simp [he, h]

/-- C4: on every authenticated operation (initiate_upload, complete_upload,
list_my_images), a missing, empty, or signature-invalid identity token yields
the `auth` error with status 401 and leaves the system state untouched: no
store write happens and none of the operation's remaining logic runs. -/
theorem unauthorized_rejects_all_ops (env : Env) (s : Sys) (header : Option String)
    (filename mimeType iid key : Option String) (freshHex : String) (s3ok : Bool)
    (h : header = none ∨ pyStrip (header.getD "") = "" ∨
      loads env.secret (pyStrip (header.getD "")) = none) :
    request_upload env s header filename mimeType freshHex s3ok
        = (err "auth" "invalid api key" 401, s) ∧
    complete_upload env s header iid key filename mimeType
        = (err "auth" "invalid api key" 401, s) ∧
    me_images env s header = (err "auth" "invalid api key" 401, s) := by
  have hr := require_api_key_none h
  refine ⟨?_, ?_, ?_⟩ <;> simp [request_upload, complete_upload, me_images, hr]

/-- C4 witness: a request with no token at all is rejected with 401. -/
theorem unauthorized_rejects_all_ops_witness :
    request_upload ⟨"bkt", "reg", "dev-secret"⟩ (initSys (fun _ => 7)) none
        (some "cat.png") (some "image/png") "abcd" true
      = (err "auth" "invalid api key" 401, initSys (fun _ => 7)) :=
  (unauthorized_rejects_all_ops ⟨"bkt", "reg", "dev-secret"⟩ (initSys (fun _ => 7)) none
    (some "cat.png") (some "image/png") (some "i") (some "k") "abcd" true (Or.inl rfl)).1

/-- C5: an authenticated complete_upload in which any of iid, key, filename,
mime_type is absent returns the validation error with status 400 and performs
no store write (the state is returned unchanged: neither the Image record nor
the index entry is created). -/
theorem complete_upload_missing_field (env : Env) (s : Sys) (header : Option String)
    (iid key filename mimeType : Option String) (uid : String)
    (hauth : require_api_key env header = some uid)
    (hmiss : iid = none ∨ key = none ∨ filename = none ∨ mimeType = none) :
    complete_upload env s header iid key filename mimeType
      = (err "validation" "iid, key, filename, and mime_type are required" 400, s) := by
  have hfal : (falsy iid || falsy key || falsy filename || falsy mimeType) = true := by
    rcases hmiss with h | h | h | h <;> subst h <;> simp [falsy]
  simp [complete_upload, hauth, hfal]

/-- C5 witness: a valid token but no mime_type yields 400 and no write. -/
theorem complete_upload_missing_field_witness :
    complete_upload ⟨"bkt", "reg", "dev-secret"⟩ (initSys (fun _ => 7))
        (some "signed.api-key.dev-secret.u_test") (some "img_a") (some "k") (some "f") none
      = (err "validation" "iid, key, filename, and mime_type are required" 400,
          initSys (fun _ => 7)) :=
  complete_upload_missing_field _ _ _ _ _ _ _ "u_test" (by rfl)
    (Or.inr (Or.inr (Or.inr rfl)))

/-- C9: issue_key derives the user identifier deterministically from the
username alone (the fixed prefix `u_` on the normalized username, so repeated
calls agree), unconditionally overwrites the user record's created_at with
the current clock value on every call, and leaves the username field as
first set (the old value when one exists, the normalized username otherwise). -/
theorem issue_key_stable_uid_overwrites_created_at (env : Env) (s : Sys)
    (username : Option String) :
    (issue_key env s username).1
      = ok (.obj [("api_key", .str (dumps env.secret ("u_" ++ normUsername username))),
          ("uid", .str ("u_" ++ normUsername username))]) 200 ∧
    alookup "created_at"
        (hgetall (issue_key env s username).2.store (k_user ("u_" ++ normUsername username)))
      = some (toString (s.clock s.tick)) ∧
    alookup "username"
        (hgetall (issue_key env s username).2.store (k_user ("u_" ++ normUsername username)))
      = some ((alookup "username"
          (hgetall s.store (k_user ("u_" ++ normUsername username)))).getD
            (normUsername username)) := by
  refine ⟨rfl, ?_, ?_⟩
  · simp [issue_key, now, hgetall_hset_self, setFields, alookup_aset]
  · simp only [issue_key, now, hgetall_hset_self, setFields, List.foldl_cons,
      List.foldl_nil]
    rw [alookup_aset_ne (by decide), alookup_aset_ne (by decide)]
    rw [show hgetall s.store (k_user ("u_" ++ normUsername username))
        = hashAt s.store (k_user ("u_" ++ normUsername username)) from rfl]
    rw [hashAt_hsetnx_self]
    cases h : alookup "username" (hashAt s.store (k_user ("u_" ++ normUsername username))) with
    | none => simp [h, alookup_aset_self]
    | some v => simp [h]

/-- C7: an authenticated complete_upload with all four fields present always
succeeds (201 with the id/url summary) and records the image under the
token's uid as owner — for arbitrary client-supplied iid and key, with no
verification of those identifiers against the owner or the storage backend. -/
theorem complete_upload_accepts_any_ids (env : Env) (s : Sys) (header : Option String)
    (iid key filename mimeType : Option String) (uid : String)
    (hauth : require_api_key env header = some uid)
    (h1 : falsy iid = false) (h2 : falsy key = false)
    (h3 : falsy filename = false) (h4 : falsy mimeType = false) :
    (complete_upload env s header iid key filename mimeType).1
      = ok (.obj [("id", .str (iid.getD "")),
          ("url", .str (get_s3_url env (key.getD "")))]) 201 ∧
    alookup "owner_uid"
        (hgetall (complete_upload env s header iid key filename mimeType).2.store
          (k_img (iid.getD "")))
      = some uid ∧
    (iid.getD "") ∈
      (zsetAt (complete_upload env s header iid key filename mimeType).2.store
        (k_user_images uid)).map Prod.fst := by
  have hfal : (falsy iid || falsy key || falsy filename || falsy mimeType) = false := by
    simp [h1, h2, h3, h4]
  refine ⟨?_, ?_, ?_⟩
  · simp [complete_upload, hauth, hfal]
  · simp [complete_upload, hauth, hfal, now, hgetall_zadd, hgetall_hset_self,
      setFields, alookup_aset]
  · simp [complete_upload, hauth, hfal, now]
    rw [zsetAt_zadd_self]
    exact ⟨_, self_mem_zinsert _ _ _⟩

/-- C7 witness: a token issued for `u_alice`, presented with an
iid/storage key that sit under `u_bob`'s namespace, is still accepted; the
record is created with owner `u_alice`. -/
theorem complete_upload_accepts_any_ids_witness :
    (complete_upload ⟨"bkt", "reg", "dev-secret"⟩ (initSys (fun _ => 7))
        (some "signed.api-key.dev-secret.u_alice") (some "img_res")
        (some "uploads/u_bob/img_res/cat.png") (some "cat.png") (some "image/png")).1
      = ok (.obj [("id", .str "img_res"),
          ("url", .str (get_s3_url ⟨"bkt", "reg", "dev-secret"⟩
            "uploads/u_bob/img_res/cat.png"))]) 201 ∧
    alookup "owner_uid"
        (hgetall (complete_upload ⟨"bkt", "reg", "dev-secret"⟩ (initSys (fun _ => 7))
          (some "signed.api-key.dev-secret.u_alice") (some "img_res")
          (some "uploads/u_bob/img_res/cat.png") (some "cat.png") (some "image/png")).2.store
          (k_img "img_res"))
      = some "u_alice" ∧
    "img_res" ∈
      (zsetAt (complete_upload ⟨"bkt", "reg", "dev-secret"⟩ (initSys (fun _ => 7))
        (some "signed.api-key.dev-secret.u_alice") (some "img_res")
        (some "uploads/u_bob/img_res/cat.png") (some "cat.png") (some "image/png")).2.store
        (k_user_images "u_alice")).map Prod.fst :=
  complete_upload_accepts_any_ids _ _ _ _ _ _ _ "u_alice" (by rfl) rfl rfl rfl rfl

/-- The store invariant of §3: the per-user image index never references an
identifier without a corresponding (non-empty) Image record. -/
def indexConsistent (st : Store) : Prop :=
  ∀ uid iid, iid ∈ (zsetAt st (k_user_images uid)).map Prod.fst →
    hgetall st (k_img iid) ≠ []

/-- C2: complete_upload applies the Image-record write and the index append
as one batched state transition (the pipelined `hset`+`zadd` commit
together), so the index-consistency invariant holds in every state a reader
can observe after the call whenever it held before — on every path of the
operation, success or failure. -/
theorem complete_upload_preserves_index_consistency (env : Env) (s : Sys)
    (header : Option String) (iid key filename mimeType : Option String)
    (h : indexConsistent s.store) :
    indexConsistent (complete_upload env s header iid key filename mimeType).2.store := by
  cases hr : require_api_key env header with
  | none =>
    simp only [complete_upload, hr]
    exact h
  | some uid =>
    by_cases hf : (falsy iid || falsy key || falsy filename || falsy mimeType) = true
    · simp only [complete_upload, hr, hf, if_true]
      exact h
    · simp only [complete_upload, hr]
      rw [if_neg hf]
      intro uid' iid' hmem
      simp only [now] at hmem
      by_cases hk : k_user_images uid = k_user_images uid'
      · rw [← hk, zsetAt_zadd_self] at hmem
        rcases mem_map_fst_zinsert hmem with hcase | hcase
        · subst hcase
          rw [hgetall_zadd, hgetall_hset_self]
          exact setFields_cons_ne_nil _ _ _
        · have hold : iid' ∈ (zsetAt s.store (k_user_images uid')).map Prod.fst := by
            rw [← hk]
            exact mem_map_fst_zremove hcase
          by_cases hki : k_img (iid.getD "") = k_img iid'
          · rw [hgetall_zadd, ← hki, hgetall_hset_self]
            exact setFields_cons_ne_nil _ _ _
          · rw [hgetall_zadd, hgetall_hset_ne hki]
            exact h uid' iid' hold
      · rw [zsetAt_zadd_ne hk, zsetAt_hset] at hmem
        by_cases hki : k_img (iid.getD "") = k_img iid'
        · rw [hgetall_zadd, ← hki, hgetall_hset_self]
          exact setFields_cons_ne_nil _ _ _
        · rw [hgetall_zadd, hgetall_hset_ne hki]
          exact h uid' iid' hmem

/-- C2 witness: from the empty (trivially consistent) store, a successful
complete_upload leaves the store consistent. -/
theorem complete_upload_preserves_index_consistency_witness :
    indexConsistent (complete_upload ⟨"bkt", "reg", "dev-secret"⟩ (initSys (fun _ => 7))
        (some "signed.api-key.dev-secret.u_test") (some "img_a") (some "k") (some "f")
        (some "m")).2.store :=
  complete_upload_preserves_index_consistency _ _ _ _ _ _ _ (by
    intro uid iid hmem
    simp [zsetAt, initSys, emptyStore, alookup] at hmem)

/-- A clock that advances by one between successive reads: the two `now()`
calls inside complete_upload straddle a second boundary. -/
def tickingClock : Nat → Nat := fun n => 5 + n

/-- The store left by a complete_upload during which the clock ticked. -/
def tickedStore : Store :=
  (complete_upload ⟨"bkt", "reg", "dev-secret"⟩ (initSys tickingClock)
    (some "signed.api-key.dev-secret.u_test") (some "img_a") (some "k") (some "f")
    (some "m")).2.store

/-- C8 counterexample: `created_at` uses the first `now()` read (5) while the
index score uses the second (6), so after a successful complete_upload whose
two clock reads differ, the score stored with the image identifier does not
equal the created_at timestamp of its metadata record. -/
theorem index_score_differs_from_created_at :
    zsetAt tickedStore (k_user_images "u_test") = [("img_a", 6)] ∧
    alookup "created_at" (hgetall tickedStore (k_img "img_a")) = some "5" ∧
    alookup "created_at" (hgetall tickedStore (k_img "img_a"))
      ≠ some (toString (6 : Nat)) := by
  refine ⟨rfl, rfl, by decide⟩

/-- C8 (amended): the index score is the value of a second clock read taken
immediately after the read stored as created_at; whenever the clock does not
advance between the two reads, the score stored with the image identifier in
the owner's index equals the created_at timestamp of the image's record. -/
theorem index_score_matches_created_at_when_clock_stable (env : Env) (s : Sys)
    (header : Option String) (iid key filename mimeType : Option String) (uid : String)
    (hauth : require_api_key env header = some uid)
    (h1 : falsy iid = false) (h2 : falsy key = false)
    (h3 : falsy filename = false) (h4 : falsy mimeType = false)
    (hclk : s.clock (s.tick + 1) = s.clock s.tick) :
    (iid.getD "", s.clock s.tick) ∈
      zsetAt (complete_upload env s header iid key filename mimeType).2.store
        (k_user_images uid) ∧
    alookup "created_at"
        (hgetall (complete_upload env s header iid key filename mimeType).2.store
          (k_img (iid.getD "")))
      = some (toString (s.clock s.tick)) := by
  have hfal : (falsy iid || falsy key || falsy filename || falsy mimeType) = false := by
    simp [h1, h2, h3, h4]
  constructor
  · simp only [complete_upload, hauth, hfal, now]
    rw [if_neg (by simp [hfal])]
    simp only []
    rw [zsetAt_zadd_self, hclk]
    exact self_mem_zinsert _ _ _
  · simp [complete_upload, hauth, hfal, now, hgetall_zadd, hgetall_hset_self,
      setFields, alookup_aset]

/-- C8 amended witness: with a clock that is stable across the request, the
index entry and record timestamp agree. -/
theorem index_score_matches_created_at_when_clock_stable_witness :
    ("img_a", (9 : Nat)) ∈
      zsetAt (complete_upload ⟨"bkt", "reg", "dev-secret"⟩ (initSys (fun _ => 9))
        (some "signed.api-key.dev-secret.u_test") (some "img_a") (some "k") (some "f")
        (some "m")).2.store (k_user_images "u_test") ∧
    alookup "created_at"
        (hgetall (complete_upload ⟨"bkt", "reg", "dev-secret"⟩ (initSys (fun _ => 9))
          (some "signed.api-key.dev-secret.u_test") (some "img_a") (some "k") (some "f")
          (some "m")).2.store (k_img "img_a"))
      = some (toString (9 : Nat)) :=
  index_score_matches_created_at_when_clock_stable _ _ _ _ _ _ _ "u_test" (by rfl)
    rfl rfl rfl rfl rfl

/-- The response of one concrete successful complete_upload. -/
def sampleSuccess : Resp :=
  (complete_upload ⟨"bkt", "reg", "dev-secret"⟩ (initSys (fun _ => 3))
    (some "signed.api-key.dev-secret.u_test") (some "img_a") (some "k") (some "f")
    (some "m")).1

/-- C1 counterexample: a successful complete_upload returns the payload
object itself — `{"id": ..., "url": ...}` with no top-level `data` key — so
success responses are not wrapped under `data`. -/
theorem success_payload_not_wrapped_in_data :
    sampleSuccess.status = 201 ∧
    sampleSuccess.body
      = Json.obj [("id", .str "img_a"), ("url", .str "https://bkt.s3.reg.amazonaws.com/k")] ∧
    sampleSuccess.body.lookup "data" = none := by
  exact ⟨rfl, rfl, rfl⟩

/-- C1 (amended): every success response returns its payload object directly
at the top level (no `data` wrapper), and every failure response wraps
`{code, message}` under a top-level `error` key, with status 401 for
authentication failures, 400 for validation failures, and 500 for
storage/server faults. -/
theorem response_envelope (env : Env) (s : Sys) (header : Option String)
    (username filename mimeType iid key : Option String) (freshHex : String)
    (s3ok : Bool) :
    ((request_upload env s header filename mimeType freshHex s3ok).1
        = err "auth" "invalid api key" 401 ∨
      (request_upload env s header filename mimeType freshHex s3ok).1
        = err "validation" "filename and mime_type are required" 400 ∨
      (request_upload env s header filename mimeType freshHex s3ok).1
        = err "s3_error" "Could not generate S3 upload URL. Check permissions." 500 ∨
      ∃ i k p, (request_upload env s header filename mimeType freshHex s3ok).1
        = ok (.obj [("iid", .str i), ("key", .str k), ("presigned_url", .str p)]) 200) ∧
    ((complete_upload env s header iid key filename mimeType).1
        = err "auth" "invalid api key" 401 ∨
      (complete_upload env s header iid key filename mimeType).1
        = err "validation" "iid, key, filename, and mime_type are required" 400 ∨
      ∃ i u, (complete_upload env s header iid key filename mimeType).1
        = ok (.obj [("id", .str i), ("url", .str u)]) 201) ∧
    ((me_images env s header).1 = err "auth" "invalid api key" 401 ∨
      ∃ items, (me_images env s header).1 = ok (.obj [("items", .arr items)]) 200) ∧
    (∃ t u, (issue_key env s username).1
      = ok (.obj [("api_key", .str t), ("uid", .str u)]) 200) ∧
    health_check = ok (.obj [("status", .str "ok")]) 200 ∧
    (∀ code message status, (err code message status).body
      = .obj [("error", .obj [("code", .str code), ("message", .str message)])]) := by
  refine ⟨?_, ?_, ?_, ⟨_, _, rfl⟩, rfl, fun _ _ _ => rfl⟩
  · cases hr : require_api_key env header with
    | none => exact Or.inl (by simp [request_upload, hr])
    | some uid =>
      by_cases hf : (falsy filename || falsy mimeType) = true
      · exact Or.inr (Or.inl (by simp [request_upload, hr, hf]))
      · cases s3ok with
        | true =>
          refine Or.inr (Or.inr (Or.inr ?_))
          simp only [request_upload, hr]
          rw [if_neg hf]
          exact ⟨_, _, _, rfl⟩
        | false =>
          refine Or.inr (Or.inr (Or.inl ?_))
          simp only [request_upload, hr]
          rw [if_neg hf]
          rfl
  · cases hr : require_api_key env header with
    | none => exact Or.inl (by simp [complete_upload, hr])
    | some uid =>
      by_cases hf : (falsy iid || falsy key || falsy filename || falsy mimeType) = true
      · exact Or.inr (Or.inl (by simp [complete_upload, hr, hf]))
      · refine Or.inr (Or.inr ?_)
        simp only [complete_upload, hr]
        rw [if_neg hf]
        exact ⟨_, _, rfl⟩
  · cases hr : require_api_key env header with
    | none => exact Or.inl (by simp [me_images, hr])
    | some uid =>
      refine Or.inr ⟨List.map hashJson (me_images_items s.store uid), ?_⟩
      simp [me_images, hr]

/-- The items of a listing are: the first 50 index entries, those with a
non-empty record kept, each mapped to its record. -/
theorem me_images_items_eq (st : Store) (uid : String) :
    me_images_items st uid =
      (((zsetAt st (k_user_images uid)).take 50).filter
          (fun p => !(hgetall st (k_img p.1)).isEmpty)).map
        (fun p => hgetall st (k_img p.1)) := by
  unfold me_images_items zrevrange50
  rw [List.map_map, List.filter_map]
  rfl

/-- A monotone clock that crosses one second boundary: 5 at the first read,
6 from then on. -/
def tieClock : Nat → Nat := fun n => if n = 0 then 5 else 6

/-- The state after `u_test` completes `img_b` with that clock: its record
gets created_at "5" (first read), its index score 6 (second read). -/
def tieSys1 : Sys :=
  (complete_upload ⟨"bkt", "reg", "dev-secret"⟩ (initSys tieClock)
    (some "signed.api-key.dev-secret.u_test") (some "img_b") (some "kb") (some "f")
    (some "m")).2

/-- The store after `u_test` then completes `img_a`: record created_at "6",
index score 6 — tying `img_b`'s score. -/
def tieStore : Store :=
  (complete_upload ⟨"bkt", "reg", "dev-secret"⟩ tieSys1
    (some "signed.api-key.dev-secret.u_test") (some "img_a") (some "ka") (some "f")
    (some "m")).2.store

/-- C6 counterexample: at the reachable store built by two completions that
straddle one second boundary, the index holds `img_b` and `img_a` with equal
score 6, `ZREVRANGE`'s reverse-lexicographic tie order lists `img_b` first,
and the listing's created_at values come back as "5" then "6" — ascending,
not strictly descending creation time. -/
theorem listing_out_of_created_at_order :
    (me_images_items tieStore "u_test").map (alookup "created_at")
      = [some (toString (5 : Nat)), some (toString (6 : Nat))] ∧
    (5 : Nat) < 6 ∧
    zsetAt tieStore (k_user_images "u_test") = [("img_b", 6), ("img_a", 6)] := by
  refine ⟨rfl, by decide, rfl⟩

/-- C6 (amended): for every owner whose index is in the `ZREVRANGE`
representation order, the listing returns at most 50 entries; the entries
are exactly the present records of the 50 highest-ranked index entries, in
index order — non-increasing score, ties broken by the stable
reverse-lexicographic member order — and an index entry whose record is
missing is silently skipped rather than causing an error. (Index score
coincides with creation time only when the clock did not advance between
the two reads of the entry's completion; see the C8 correction.) -/
theorem list_images_limited_ordered_by_score_skips_missing (st : Store) (uid : String)
    (hsort : (zsetAt st (k_user_images uid)).Pairwise zBefore) :
    (me_images_items st uid).length ≤ 50 ∧
    me_images_items st uid
      = (((zsetAt st (k_user_images uid)).take 50).filter
            (fun p => !(hgetall st (k_img p.1)).isEmpty)).map
          (fun p => hgetall st (k_img p.1)) ∧
    ((((zsetAt st (k_user_images uid)).take 50).filter
        (fun p => !(hgetall st (k_img p.1)).isEmpty)).map Prod.snd).Pairwise
      (fun a b => b ≤ a) := by
  have heq := me_images_items_eq st uid
  refine ⟨?_, heq, ?_⟩
  · rw [heq, List.length_map]
    exact le_trans (List.length_filter_le _ _)
      (by rw [List.length_take]; exact min_le_left _ _)
  · have h50 : ((zsetAt st (k_user_images uid)).take 50).Pairwise zBefore :=
      hsort.sublist (List.take_sublist 50 _)
    have hfil : (((zsetAt st (k_user_images uid)).take 50).filter
        (fun p => !(hgetall st (k_img p.1)).isEmpty)).Pairwise zBefore :=
      h50.sublist (List.filter_sublist _)
    refine hfil.map Prod.snd ?_
    intro a b hab
    rcases hab with hlt | ⟨heq2, _⟩
    · exact le_of_lt hlt
    · exact le_of_eq heq2

/-- C6 witness: at the reachable two-image store with tied scores (a
non-trivially sorted index), the listing obeys the bound, the skip-filter
characterization, and the non-increasing score order. -/
theorem list_images_limited_ordered_by_score_skips_missing_witness :
    (me_images_items tieStore "u_test").length ≤ 50 ∧
    me_images_items tieStore "u_test"
      = (((zsetAt tieStore (k_user_images "u_test")).take 50).filter
            (fun p => !(hgetall tieStore (k_img p.1)).isEmpty)).map
          (fun p => hgetall tieStore (k_img p.1)) ∧
    ((((zsetAt tieStore (k_user_images "u_test")).take 50).filter
        (fun p => !(hgetall tieStore (k_img p.1)).isEmpty)).map Prod.snd).Pairwise
      (fun a b => b ≤ a) :=
  list_images_limited_ordered_by_score_skips_missing tieStore "u_test" (by decide)

/-- A store whose owner `u_a` has 51 indexed images (scores 50 down to 0)
with records present for `img_0` .. `img_49` but missing for `img_50`,
the newest. -/
def crowdStore : Store :=
  ⟨(List.range 50).map (fun k => ("img:img_" ++ toString k, [("id", "img_" ++ toString k)])),
   [("user:u_a:images", (List.range 51).reverse.map (fun k => ("img_" ++ toString k, k)))]⟩

/-- C10: the listing reads only the 50 most-recent index entries and filters
missing records afterwards: every returned item is the record of one of the
top-50 index entries; and at `crowdStore` — 51 indexed images of which 50
have intact records — only 49 items come back, and the intact record of
`img_0` (whose index entry is outside the top 50) is never returned. -/
theorem listing_consults_only_top50 :
    (∀ st uid, me_images_items st uid ⊆
      (((zsetAt st (k_user_images uid)).take 50).map
        (fun p => hgetall st (k_img p.1)))) ∧
    (me_images_items crowdStore "u_a").length = 49 ∧
    ((zsetAt crowdStore (k_user_images "u_a")).filter
        (fun p => !(hgetall crowdStore (k_img p.1)).isEmpty)).length = 50 ∧
    hgetall crowdStore (k_img "img_0") = [("id", "img_0")] ∧
    [("id", "img_0")] ∉ me_images_items crowdStore "u_a" := by
  refine ⟨?_, by decide, by decide, by decide, by decide⟩
  intro st uid
  rw [me_images_items_eq]
  exact List.map_subset _ (List.filter_subset' _)

/-- The deployment configuration of the scenario: any bucket and region,
the default signing secret of `app.py`. -/
def aliceEnv (bucket region : String) : Env := ⟨bucket, region, "dev-secret"⟩

/-- The token `issue_key` returns for username "alice" under that secret. -/
def aliceTok : String := "signed.api-key.dev-secret.u_alice"

/-- The state after issuing alice's identity from a fresh store. -/
def sysAfterIssue (bucket region : String) (c : Nat → Nat) : Sys :=
  (issue_key (aliceEnv bucket region) (initSys c) (some "alice")).2

/-- The state after alice's complete_upload of cat.png. -/
def sysAfterComplete (bucket region : String) (c : Nat → Nat) : Sys :=
  (complete_upload (aliceEnv bucket region) (sysAfterIssue bucket region c) (some aliceTok)
    (some "img_ab12cd34ef56") (some "uploads/u_alice/img_ab12cd34ef56/cat.png")
    (some "cat.png") (some "image/png")).2

/-- C3: issuing an identity for "alice" yields the stable derived uid
`u_alice`; initiate_upload("cat.png", "image/png") returns an image id and
the storage key `uploads/u_alice/<image_id>/cat.png` (and writes nothing);
complete_upload with those values returns
`{id: <image_id>, url: https://<bucket>.s3.<region>.amazonaws.com/<storage_key>}`;
and list_my_images then holds exactly one entry, whose id is that image id. -/
theorem upload_scenario_alice (bucket region : String) (c : Nat → Nat) :
    (issue_key (aliceEnv bucket region) (initSys c) (some "alice")).1
      = ok (.obj [("api_key", .str aliceTok), ("uid", .str "u_alice")]) 200 ∧
    (request_upload (aliceEnv bucket region) (sysAfterIssue bucket region c) (some aliceTok)
        (some "cat.png") (some "image/png") "ab12cd34ef56" true).1
      = ok (.obj [("iid", .str "img_ab12cd34ef56"),
          ("key", .str "uploads/u_alice/img_ab12cd34ef56/cat.png"),
          ("presigned_url", .str (presignedUrl (aliceEnv bucket region)
            "uploads/u_alice/img_ab12cd34ef56/cat.png" "image/png"))]) 200 ∧
    (request_upload (aliceEnv bucket region) (sysAfterIssue bucket region c) (some aliceTok)
        (some "cat.png") (some "image/png") "ab12cd34ef56" true).2
      = sysAfterIssue bucket region c ∧
    (complete_upload (aliceEnv bucket region) (sysAfterIssue bucket region c) (some aliceTok)
        (some "img_ab12cd34ef56") (some "uploads/u_alice/img_ab12cd34ef56/cat.png")
        (some "cat.png") (some "image/png")).1
      = ok (.obj [("id", .str "img_ab12cd34ef56"),
          ("url", .str ("https://" ++ bucket ++ ".s3." ++ region ++ ".amazonaws.com/"
            ++ "uploads/u_alice/img_ab12cd34ef56/cat.png"))]) 201 ∧
    me_images_items (sysAfterComplete bucket region c).store "u_alice"
      = [[("id", "img_ab12cd34ef56"), ("owner_uid", "u_alice"),
          ("key", "uploads/u_alice/img_ab12cd34ef56/cat.png"),
          ("url", "https://" ++ bucket ++ ".s3." ++ region ++ ".amazonaws.com/"
            ++ "uploads/u_alice/img_ab12cd34ef56/cat.png"),
          ("filename", "cat.png"), ("mime", "image/png"), ("private", "0"),
          ("created_at", toString (c 1)), ("views", "0")]] := by
  refine ⟨rfl, rfl, rfl, rfl, rfl⟩

end ImageHost
